import Mathlib

/-!
Verification development for the spreadsheet formula engine
(tokenizer, recursive-descent parser, tree-walking evaluator, and the
`SimpleCellDataProvider` reference cell store).

The TypeScript source is shallowly embedded:
* JS numbers are modelled as exact rationals (`ℚ`).  All arithmetic
  relevant to the statements below is exact, so the floating-point
  rounding of the host language is immaterial here; `parseFloat` is
  modelled as an exact rational parse of the same grammar (the
  `Infinity` production is outside the model and maps to "not a
  number").
* Thrown exceptions become `Except String`; the single catch site in
  `evaluate` becomes a `match` on that `Except`.
* The recursive scanners/parsers of the source are total Lean functions;
  recursion that is not structural in the source is driven by a fuel
  parameter chosen large enough that it is never exhausted on any input
  (every loop iteration of the source consumes at least one character or
  token).
-/

namespace Excel

/-- The whitespace class used by the source (`/\s/` test and `trim`),
restricted to the ASCII range. -/
def jsWhitespace (c : Char) : Bool :=
  c = ' ' || c = '\t' || c = '\n' || c = '\r' || c.toNat = 11 || c.toNat = 12

/-- The character class `[A-Za-z]`. -/
def isAlphaJS (c : Char) : Bool :=
  (65 ≤ c.toNat && c.toNat ≤ 90) || (97 ≤ c.toNat && c.toNat ≤ 122)

/-- The character class `[0-9]`. -/
def isDigitJS (c : Char) : Bool :=
  48 ≤ c.toNat && c.toNat ≤ 57

/-- `toUpperCase` on a single character (ASCII): shift `a`-`z` down by
32, leave everything else unchanged. -/
def jsToUpperChar (c : Char) : Char :=
  if 97 ≤ c.toNat && c.toNat ≤ 122 then Char.ofNat (c.toNat - 32) else c

/-- `String.prototype.trim`: drop whitespace from both ends. -/
def trimJS (cs : List Char) : List Char :=
  ((cs.dropWhile jsWhitespace).reverse.dropWhile jsWhitespace).reverse

/-- Decimal digits to a natural number (the effect of `parseInt` on an
all-digit string, and the mantissa accumulation of `parseFloat`). -/
def digitsToNat (ds : List Char) : Nat :=
  ds.foldl (fun n c => n * 10 + (c.toNat - 48)) 0

/-- `parseFloat`: skip leading whitespace, an optional sign, digits with
an optional fractional part, and an optional exponent; trailing garbage
is ignored; `none` models `NaN` (no digit in the mantissa). -/
def parseFloatQ (s : String) : Option ℚ :=
  let cs := s.data.dropWhile jsWhitespace
  let signSplit : Bool × List Char :=
    match cs with
    | '-' :: r => (true, r)
    | '+' :: r => (false, r)
    | _ => (false, cs)
  let neg := signSplit.1
  let cs1 := signSplit.2
  let ip := cs1.takeWhile isDigitJS
  let cs2 := cs1.dropWhile isDigitJS
  let fracSplit : List Char × List Char :=
    match cs2 with
    | '.' :: r => (r.takeWhile isDigitJS, r.dropWhile isDigitJS)
    | _ => ([], cs2)
  let fp := fracSplit.1
  let cs3 := fracSplit.2
  if ip.isEmpty && fp.isEmpty then
    none
  else
    let mant : ℚ := (digitsToNat ip : ℚ) + (digitsToNat fp : ℚ) / ((10 ^ fp.length : ℕ) : ℚ)
    let expSplit : Bool × List Char :=
      match cs3 with
      | e :: r =>
        if e = 'e' || e = 'E' then
          match r with
          | '-' :: rr => (true, rr.takeWhile isDigitJS)
          | '+' :: rr => (false, rr.takeWhile isDigitJS)
          | _ => (false, r.takeWhile isDigitJS)
        else (false, [])
      | [] => (false, [])
    let eneg := expSplit.1
    let ed := expSplit.2
    let scaled : ℚ :=
      if ed.isEmpty then mant
      else if eneg then mant / ((10 ^ digitsToNat ed : ℕ) : ℚ)
      else mant * ((10 ^ digitsToNat ed : ℕ) : ℚ)
    some (if neg then -scaled else scaled)

/-- `String.prototype.toUpperCase` (ASCII). -/
def toUpperStr (s : String) : String :=
  String.mk (s.data.map jsToUpperChar)

/-- The source's `FormulaValue` type: `number | string | boolean | null`. -/
inductive FormulaValue where
  | num (q : ℚ)
  | str (s : String)
  | boolean (b : Bool)
  | null
deriving DecidableEq, Repr

/-- What an expression actually evaluates to at runtime: a `FormulaValue`
scalar, or the 2-D array produced by a range reference (typed as
`FormulaValue[][]` in the source). -/
inductive RuntimeValue where
  | val (v : FormulaValue)
  | arr (rows : List (List FormulaValue))
deriving DecidableEq, Repr

/-- The `CellDataProvider` interface.  Methods may fail (a JS
implementation may throw); `SimpleCellDataProvider.getCellRange` below
does so on malformed endpoints. -/
structure CellDataProvider where
  getCellValue : String → Except String FormulaValue
  getCellRange : String → String → Except String (List (List FormulaValue))

/-- The `TokenType` enum. -/
inductive TokenType where
  | NUMBER
  | STRING
  | CELL_REF
  | OPERATOR
  | FUNCTION
  | LEFT_PAREN
  | RIGHT_PAREN
  | COMMA
  | COLON
  | EOF
deriving DecidableEq, Repr

/-- A token: kind plus literal text. -/
structure Token where
  type : TokenType
  value : String
deriving DecidableEq, Repr

/-- The anchored test `CELL_REGEX = /^[A-Za-z]+[0-9]+$/`. -/
def isCellId (s : String) : Bool :=
  let ls := s.data.takeWhile isAlphaJS
  let rest := s.data.dropWhile isAlphaJS
  !ls.isEmpty && !rest.isEmpty && rest.all isDigitJS

/-- Characters allowed inside an identifier (`/[A-Za-z0-9_]/`). -/
def isIdentChar (c : Char) : Bool :=
  isAlphaJS c || isDigitJS c || c = '_'

/-- The number scanner of `tokenize`: consume digits with at most one
decimal point, returning the literal and the remaining input. -/
def scanNumber : List Char → Bool → List Char × List Char
  | [], _ => ([], [])
  | c :: rest, hasDot =>
    if isDigitJS c then
      let p := scanNumber rest hasDot
      (c :: p.1, p.2)
    else if c = '.' && !hasDot then
      let p := scanNumber rest true
      (c :: p.1, p.2)
    else ([], c :: rest)

/-- One pass of `tokenize`; the fuel only bounds the number of loop
iterations, each of which consumes at least one character. -/
def tokenizeAux : Nat → List Char → Except String (List Token)
  | 0, _ => .error "词法分析深度超限"
  | fuel + 1, cs =>
    match cs with
    | [] => .ok [⟨.EOF, ""⟩]
    | c :: rest =>
      if jsWhitespace c then
        tokenizeAux fuel rest
      else if isDigitJS c || (c = '.' && (match rest with
          | d :: _ => isDigitJS d
          | [] => false)) then
        let p := scanNumber (c :: rest) false
        match tokenizeAux fuel p.2 with
        | .error m => .error m
        | .ok ts => .ok (⟨.NUMBER, String.mk p.1⟩ :: ts)
      else if c = '"' then
        let str := rest.takeWhile (fun x => x ≠ '"')
        match rest.dropWhile (fun x => x ≠ '"') with
        | [] => .error "未闭合的字符串"
        | _ :: r2 =>
          match tokenizeAux fuel r2 with
          | .error m => .error m
          | .ok ts => .ok (⟨.STRING, String.mk str⟩ :: ts)
      else if isAlphaJS c then
        let ident := (c :: rest).takeWhile isIdentChar
        let after := (c :: rest).dropWhile isIdentChar
        match after with
        | '(' :: _ =>
          match tokenizeAux fuel after with
          | .error m => .error m
          | .ok ts => .ok (⟨.FUNCTION, String.mk ident⟩ :: ts)
        | _ =>
          if isCellId (String.mk ident) then
            match tokenizeAux fuel after with
            | .error m => .error m
            | .ok ts => .ok (⟨.CELL_REF, String.mk ident⟩ :: ts)
          else .error ("无效的单元格引用或函数名: " ++ String.mk ident)
      else if c = '(' then
        match tokenizeAux fuel rest with
        | .error m => .error m
        | .ok ts => .ok (⟨.LEFT_PAREN, "("⟩ :: ts)
      else if c = ')' then
        match tokenizeAux fuel rest with
        | .error m => .error m
        | .ok ts => .ok (⟨.RIGHT_PAREN, ")"⟩ :: ts)
      else if c = ',' then
        match tokenizeAux fuel rest with
        | .error m => .error m
        | .ok ts => .ok (⟨.COMMA, ","⟩ :: ts)
      else if c = ':' then
        match tokenizeAux fuel rest with
        | .error m => .error m
        | .ok ts => .ok (⟨.COLON, ":"⟩ :: ts)
      else if c = '+' || c = '-' || c = '*' || c = '/' then
        match tokenizeAux fuel rest with
        | .error m => .error m
        | .ok ts => .ok (⟨.OPERATOR, String.mk [c]⟩ :: ts)
      else .error ("无法识别的字符: " ++ String.mk [c])

/-- `tokenize`: scan the whole (already trimmed) formula body and append
the final `EOF` token. -/
def tokenize (cs : List Char) : Except String (List Token) :=
  tokenizeAux (cs.length + 1) cs

/-- The AST node variants. -/
inductive AstNode where
  | number (value : ℚ)
  | string (value : String)
  | cell_ref (cellId : String)
  | range_ref (startCell endCell : String)
  | binary_op (operator : String) (left right : AstNode)
  | function_call (name : String) (arguments : List AstNode)
deriving Repr

/-!
The recursive-descent parser.  Each function receives the not yet
consumed suffix of the token list and returns the parsed node together
with the remaining suffix (the `current` cursor of the source).  The
`match`/`check`/`advance` helpers of the source reduce to pattern
matching on the head of that suffix; note that `match([OPERATOR])`
advances past the operator before its tier is inspected, which the
embedding reproduces literally.  Fuel bounds the recursion depth and is
chosen in `parse` so that it is never exhausted.
-/

mutual

/-- `parsePrimary`: number, string, cell/range reference, function call
or parenthesized group. -/
def parsePrimary : Nat → List Token → Except String (AstNode × List Token)
  | 0, _ => .error "解析深度超限"
  | fuel + 1, ts =>
    match ts with
    | [] => .error "无法解析的表达式: "
    | t :: rest =>
      if t.type = .NUMBER then
        .ok (.number ((parseFloatQ t.value).getD 0), rest)
      else if t.type = .STRING then
        .ok (.string t.value, rest)
      else if t.type = .CELL_REF then
        match rest with
        | c1 :: r1 =>
          if c1.type = .COLON then
            match r1 with
            | c2 :: r2 =>
              if c2.type = .CELL_REF then .ok (.range_ref t.value c2.value, r2)
              else .ok (.cell_ref t.value, r1)
            | [] => .ok (.cell_ref t.value, r1)
          else .ok (.cell_ref t.value, rest)
        | [] => .ok (.cell_ref t.value, rest)
      else if t.type = .FUNCTION then
        match rest with
        | lp :: r1 =>
          if lp.type = .LEFT_PAREN then
            match r1 with
            | rp :: r2 =>
              if rp.type = .RIGHT_PAREN then
                .ok (.function_call t.value [], r2)
              else
                match parseArguments fuel r1 with
                | .error m => .error m
                | .ok (args, r3) =>
                  match r3 with
                  | rp2 :: r4 =>
                    if rp2.type = .RIGHT_PAREN then .ok (.function_call t.value args, r4)
                    else .error "预期函数参数结束有 ')'"
                  | [] => .error "预期函数参数结束有 ')'"
            | [] =>
              match parseArguments fuel r1 with
              | .error m => .error m
              | .ok (_, _) => .error "预期函数参数结束有 ')'"
          else .error ("预期函数 " ++ t.value ++ " 后跟随的是 '('")
        | [] => .error ("预期函数 " ++ t.value ++ " 后跟随的是 '('")
      else if t.type = .LEFT_PAREN then
        match parseExpression fuel rest with
        | .error m => .error m
        | .ok (e, r1) =>
          match r1 with
          | rp :: r2 =>
            if rp.type = .RIGHT_PAREN then .ok (e, r2)
            else .error "预期表达式结束有 ')'"
          | [] => .error "预期表达式结束有 ')'"
      else .error ("无法解析的表达式: " ++ t.value)

/-- The argument list of a function call: `expr (',' expr)*`
(the do/while over `match([COMMA])`). -/
def parseArguments : Nat → List Token → Except String (List AstNode × List Token)
  | 0, _ => .error "解析深度超限"
  | fuel + 1, ts =>
    match parseExpression fuel ts with
    | .error m => .error m
    | .ok (e, r) =>
      match r with
      | c :: r2 =>
        if c.type = .COMMA then
          match parseArguments fuel r2 with
          | .error m => .error m
          | .ok (es, r3) => .ok (e :: es, r3)
        else .ok ([e], r)
      | [] => .ok ([e], r)

/-- The while-loop of `parseMultiplyDivide`.  `match([OPERATOR])`
consumes any operator; only afterwards is `previous().value` compared
against `*` and `/`, so a consumed `+` or `-` is simply dropped. -/
def parseMultiplyDivideLoop : Nat → AstNode → List Token → Except String (AstNode × List Token)
  | 0, _, _ => .error "解析深度超限"
  | fuel + 1, left, ts =>
    match ts with
    | t :: rest =>
      if t.type = .OPERATOR then
        if t.value = "*" || t.value = "/" then
          match parsePrimary fuel rest with
          | .error m => .error m
          | .ok (right, r1) =>
            parseMultiplyDivideLoop fuel (.binary_op t.value left right) r1
        else .ok (left, rest)
      else .ok (left, ts)
    | [] => .ok (left, ts)

/-- `parseMultiplyDivide`: a primary followed by the `* /` loop. -/
def parseMultiplyDivide : Nat → List Token → Except String (AstNode × List Token)
  | 0, _ => .error "解析深度超限"
  | fuel + 1, ts =>
    match parsePrimary fuel ts with
    | .error m => .error m
    | .ok (left, r) => parseMultiplyDivideLoop fuel left r

/-- The while-loop of `parseAddSubtract`; the same consuming lookahead
as in `parseMultiplyDivideLoop`, for `+` and `-`. -/
def parseAddSubtractLoop : Nat → AstNode → List Token → Except String (AstNode × List Token)
  | 0, _, _ => .error "解析深度超限"
  | fuel + 1, left, ts =>
    match ts with
    | t :: rest =>
      if t.type = .OPERATOR then
        if t.value = "+" || t.value = "-" then
          match parseMultiplyDivide fuel rest with
          | .error m => .error m
          | .ok (right, r1) =>
            parseAddSubtractLoop fuel (.binary_op t.value left right) r1
        else .ok (left, rest)
      else .ok (left, ts)
    | [] => .ok (left, ts)

/-- `parseAddSubtract`: a multiplicative expression followed by the
`+ -` loop. -/
def parseAddSubtract : Nat → List Token → Except String (AstNode × List Token)
  | 0, _ => .error "解析深度超限"
  | fuel + 1, ts =>
    match parseMultiplyDivide fuel ts with
    | .error m => .error m
    | .ok (left, r) => parseAddSubtractLoop fuel left r

/-- `parseExpression` delegates to the additive tier. -/
def parseExpression : Nat → List Token → Except String (AstNode × List Token)
  | 0, _ => .error "解析深度超限"
  | fuel + 1, ts => parseAddSubtract fuel ts

end

/-- `parse`: build one AST from the token stream.  The remaining suffix
is discarded without checking that it is only the `EOF` token. -/
def parse (ts : List Token) : Except String AstNode :=
  match parseExpression (8 * ts.length + 8) ts with
  | .error m => .error m
  | .ok (ast, _) => .ok ast

/-- `toNumber`: numeric coercion of a runtime value (`null` or the
empty string coerce to `0` before the `typeof` chain runs; an
unparseable non-empty string, like any non-scalar shape, is "not a
number", i.e. `none`). -/
def toNumber : RuntimeValue → Option ℚ
  | .val .null => some 0
  | .val (.num q) => some q
  | .val (.boolean b) => some (if b then 1 else 0)
  | .val (.str s) => if s = "" then some 0 else parseFloatQ s
  | .arr _ => none

/-- JS truthiness (`!!value`) over the runtime values that can occur
here; arrays are truthy, `0`, `""`, `false` and `null` are falsy. -/
def truthy : RuntimeValue → Bool
  | .val (.num q) => decide (q ≠ 0)
  | .val (.str s) => decide (s ≠ "")
  | .val (.boolean b) => b
  | .val .null => false
  | .arr _ => true

/-- One accumulation step of `calculateSum`. -/
def sumStep (acc : ℚ) (v : RuntimeValue) : ℚ :=
  match toNumber v with
  | some n => acc + n
  | none => acc

/-- `calculateSum`: fold the arguments, descending one level into range
arrays, skipping non-coercible values. -/
def calculateSum (args : List RuntimeValue) : ℚ :=
  args.foldl
    (fun acc arg =>
      match arg with
      | .arr rows => rows.foldl (fun a row => row.foldl (fun a2 c => sumStep a2 (.val c)) a) acc
      | v => sumStep acc v)
    0

/-- One accumulation step of `calculateMax` (`null` accumulator means
no coercible value seen yet). -/
def maxStep (acc : Option ℚ) (v : RuntimeValue) : Option ℚ :=
  match toNumber v with
  | some n =>
    match acc with
    | some m => some (max m n)
    | none => some n
  | none => acc

/-- One accumulation step of `calculateMin`. -/
def minStep (acc : Option ℚ) (v : RuntimeValue) : Option ℚ :=
  match toNumber v with
  | some n =>
    match acc with
    | some m => some (min m n)
    | none => some n
  | none => acc

/-- One counting step of `countNumericValues`. -/
def countStep (acc : ℚ) (v : RuntimeValue) : ℚ :=
  match toNumber v with
  | some _ => acc + 1
  | none => acc

/-- `calculateMax`: running maximum over the coercible values, or the
in-band `"#ERROR"` when none was found. -/
def calculateMax (args : List RuntimeValue) : RuntimeValue :=
  match args.foldl
    (fun acc arg =>
      match arg with
      | .arr rows => rows.foldl (fun a row => row.foldl (fun a2 c => maxStep a2 (.val c)) a) acc
      | v => maxStep acc v)
    none with
  | some m => .val (.num m)
  | none => .val (.str "#ERROR")

/-- `calculateMin`: running minimum, same empty policy as `calculateMax`. -/
def calculateMin (args : List RuntimeValue) : RuntimeValue :=
  match args.foldl
    (fun acc arg =>
      match arg with
      | .arr rows => rows.foldl (fun a row => row.foldl (fun a2 c => minStep a2 (.val c)) a) acc
      | v => minStep acc v)
    none with
  | some m => .val (.num m)
  | none => .val (.str "#ERROR")

/-- `countNumericValues`: how many coercible values the arguments
flatten to (kept in `ℚ` because the source stores it in a JS number). -/
def countNumericValues (args : List RuntimeValue) : ℚ :=
  args.foldl
    (fun acc arg =>
      match arg with
      | .arr rows => rows.foldl (fun a row => row.foldl (fun a2 c => countStep a2 (.val c)) a) acc
      | v => countStep acc v)
    0

/-- `evaluateFunction`: case-insensitive dispatch over the five
supported functions. -/
def evaluateFunction (name : String) (evaluatedArgs : List RuntimeValue) : RuntimeValue :=
  match toUpperStr name with
  | "SUM" => .val (.num (calculateSum evaluatedArgs))
  | "AVERAGE" =>
    let sum := calculateSum evaluatedArgs
    let count := countNumericValues evaluatedArgs
    if count = 0 then .val (.num 0) else .val (.num (sum / count))
  | "COUNT" => .val (.num (countNumericValues evaluatedArgs))
  | "MAX" => calculateMax evaluatedArgs
  | "MIN" => calculateMin evaluatedArgs
  | "IF" =>
    match evaluatedArgs with
    | cond :: thenV :: rest =>
      if truthy cond then thenV
      else
        match rest with
        | e :: _ => e
        | [] => .val .null
    | _ => .val (.str "#ERROR: IF 函数需要至少 2 个参数")
  | _ => .val (.str ("#ERROR: 未知函数 " ++ name))

/-- `evaluateNode`: the tree-walking evaluator.  Only provider failures
propagate as `Except.error`; every evaluation-level failure is an
in-band `FormulaValue`.  Fuel bounds the recursion depth (one unit per
tree level) and is chosen in `evaluateCore` so that it is never
exhausted on a parser-produced tree. -/
def evaluateNode (p : CellDataProvider) : Nat → AstNode → Except String RuntimeValue
  | 0, _ => .error "求值深度超限"
  | fuel + 1, node =>
    match node with
    | .number v => .ok (.val (.num v))
    | .string s => .ok (.val (.str s))
    | .cell_ref cellId =>
      match p.getCellValue cellId with
      | .ok v => .ok (.val v)
      | .error m => .error m
    | .range_ref startCell endCell =>
      match p.getCellRange startCell endCell with
      | .ok rows => .ok (.arr rows)
      | .error m => .error m
    | .binary_op op l r =>
      match evaluateNode p fuel l with
      | .error m => .error m
      | .ok lv =>
        match evaluateNode p fuel r with
        | .error m => .error m
        | .ok rv =>
          match toNumber lv, toNumber rv with
          | some left, some right =>
            if op = "+" then .ok (.val (.num (left + right)))
            else if op = "-" then .ok (.val (.num (left - right)))
            else if op = "*" then .ok (.val (.num (left * right)))
            else if op = "/" then
              if right = 0 then .ok (.val (.str "#DIV/0!"))
              else .ok (.val (.num (left / right)))
            else .ok (.val (.str "#ERROR: 未知操作符"))
          | _, _ => .ok (.val (.str "#ERROR: 无法执行数值运算"))
    | .function_call name args =>
      match args.mapM (evaluateNode p fuel) with
      | .error m => .error m
      | .ok vs => .ok (evaluateFunction name vs)

/-- The try-block of `evaluate`: tokenize, parse, evaluate. -/
def evaluateCore (p : CellDataProvider) (body : List Char) : Except String RuntimeValue :=
  match tokenize body with
  | .error m => .error m
  | .ok toks =>
    match parse toks with
    | .error m => .error m
    | .ok ast => evaluateNode p (toks.length + 1) ast

/-- `evaluate`: the sole entry point.  A string without a leading `=` is
returned unchanged; otherwise the pipeline runs inside a failure
boundary that converts any raised error into the in-band value
`"#ERROR: <message>"`. -/
def evaluate (p : CellDataProvider) (formula : String) : RuntimeValue :=
  match formula.data with
  | '=' :: rest =>
    (match evaluateCore p (trimJS rest) with
     | .ok v => v
     | .error m => .val (.str ("#ERROR: " ++ m)))
  | _ => .val (.str formula)

/-- The reference `SimpleCellDataProvider`: an in-memory mapping keyed
by CellId string (the record is modelled by an association list;
`lookup` returns the first binding, matching a JS record's single
binding per key). -/
structure SimpleCellDataProvider where
  data : List (String × FormulaValue)

namespace SimpleCellDataProvider

/-- `getCellValue`: the stored value for the verbatim id, or `null` if
absent (`this.data[cellId] ?? null`). -/
def getCellValue (d : SimpleCellDataProvider) (cellId : String) : FormulaValue :=
  match d.data.lookup cellId with
  | some v => v
  | none => .null

/-- The unanchored JS `match(/([A-Za-z]+)([0-9]+)/)`: find the leftmost
run of letters that is immediately followed by a digit, returning
(letters group, digits group); `none` models a failed match.  On a
failed attempt the scan resumes one position to the right, exactly as
the regex engine does. -/
def findCellMatchAux : List Char → Option (List Char × List Char)
  | [] => none
  | c :: rest =>
    if isAlphaJS c then
      match rest.dropWhile isAlphaJS with
      | d :: _ =>
        if isDigitJS d then
          some (c :: rest.takeWhile isAlphaJS,
                (rest.dropWhile isAlphaJS).takeWhile isDigitJS)
        else findCellMatchAux rest
      | [] => findCellMatchAux rest
    else findCellMatchAux rest

/-- String-level wrapper of `findCellMatchAux`. -/
def findCellMatch (s : String) : Option (String × String) :=
  match findCellMatchAux s.data with
  | some (ls, ds) => some (String.mk ls, String.mk ds)
  | none => none

/-- `colToIndex`: base-26 column label to 1-based index (expects the
label already uppercased, as at its call sites). -/
def colToIndex (col : String) : Nat :=
  col.data.foldl (fun idx c => idx * 26 + (c.toNat - 64)) 0

/-- The while-loop of `indexToCol`; the fuel equals the starting index,
which bounds the number of divisions by 26. -/
def indexToColAux : Nat → Nat → List Char
  | _, 0 => []
  | 0, _ + 1 => []
  | fuel + 1, n + 1 => indexToColAux fuel (n / 26) ++ [Char.ofNat (65 + n % 26)]

/-- `indexToCol`: 1-based column index back to its uppercase label. -/
def indexToCol (index : Nat) : String :=
  String.mk (indexToColAux index index)

/-- `getCellRange`: match both endpoints against the (unanchored) cell
pattern, normalize the row and column bounds independently with
`min`/`max`, and read the rectangle row by row in increasing row order
and, within a row, increasing column order. -/
def getCellRange (d : SimpleCellDataProvider) (startCell endCell : String) :
    Except String (List (List FormulaValue)) :=
  match findCellMatch startCell, findCellMatch endCell with
  | some (startCol, startRowS), some (endCol, endRowS) =>
    let startRow := digitsToNat startRowS.data
    let endRow := digitsToNat endRowS.data
    let startColIndex := colToIndex (toUpperStr startCol)
    let endColIndex := colToIndex (toUpperStr endCol)
    let minRow := min startRow endRow
    let maxRow := max startRow endRow
    let minCol := min startColIndex endColIndex
    let maxCol := max startColIndex endColIndex
    .ok ((List.range' minRow (maxRow + 1 - minRow)).map fun row =>
      (List.range' minCol (maxCol + 1 - minCol)).map fun col =>
        getCellValue d (indexToCol col ++ Nat.repr row))
  | _, _ => .error "无效的单元格范围"

/-- Package a `SimpleCellDataProvider` as the `CellDataProvider`
capability (`getCellValue` never fails; `getCellRange` may). -/
def provider (d : SimpleCellDataProvider) : CellDataProvider where
  getCellValue := fun cellId => .ok (getCellValue d cellId)
  getCellRange := fun startCell endCell => getCellRange d startCell endCell

end SimpleCellDataProvider

/-! ### Character-level lemmas -/

lemma toNat_charOfNat_upper (m : Nat) (h1 : 65 ≤ m) (h2 : m ≤ 90) :
    (Char.ofNat m).toNat = m := by
  interval_cases m <;> decide

lemma isAlphaJS_jsToUpperChar (c : Char) :
    isAlphaJS (jsToUpperChar c) = isAlphaJS c := by
  unfold jsToUpperChar
  by_cases h : (97 ≤ c.toNat && c.toNat ≤ 122) = true
  · rw [if_pos h]
    simp only [Bool.and_eq_true, decide_eq_true_eq] at h
    have hl : isAlphaJS (Char.ofNat (c.toNat - 32)) = true := by
      unfold isAlphaJS
      rw [toNat_charOfNat_upper _ (by omega) (by omega)]
      simp only [Bool.or_eq_true, Bool.and_eq_true, decide_eq_true_eq]
      omega
    have hr : isAlphaJS c = true := by
      unfold isAlphaJS
      simp only [Bool.or_eq_true, Bool.and_eq_true, decide_eq_true_eq]
      omega
    rw [hl, hr]
  · rw [if_neg h]

lemma isDigitJS_jsToUpperChar (c : Char) :
    isDigitJS (jsToUpperChar c) = isDigitJS c := by
  unfold jsToUpperChar
  by_cases h : (97 ≤ c.toNat && c.toNat ≤ 122) = true
  · rw [if_pos h]
    simp only [Bool.and_eq_true, decide_eq_true_eq] at h
    have hl : isDigitJS (Char.ofNat (c.toNat - 32)) = false := by
      unfold isDigitJS
      rw [toNat_charOfNat_upper _ (by omega) (by omega)]
      simp only [Bool.and_eq_false_iff, decide_eq_false_iff_not]
      omega
    have hr : isDigitJS c = false := by
      unfold isDigitJS
      simp only [Bool.and_eq_false_iff, decide_eq_false_iff_not]
      omega
    rw [hl, hr]
  · rw [if_neg h]

lemma jsToUpperChar_idem (c : Char) :
    jsToUpperChar (jsToUpperChar c) = jsToUpperChar c := by
  unfold jsToUpperChar
  by_cases h : (97 ≤ c.toNat && c.toNat ≤ 122) = true
  · rw [if_pos h]
    simp only [Bool.and_eq_true, decide_eq_true_eq] at h
    rw [if_neg]
    simp only [Bool.and_eq_true, decide_eq_true_eq, not_and]
    rw [toNat_charOfNat_upper _ (by omega) (by omega)]
    omega
  · rw [if_neg h, if_neg h]

lemma jsToUpperChar_of_isDigitJS (c : Char) (h : isDigitJS c = true) :
    jsToUpperChar c = c := by
  unfold isDigitJS at h
  simp only [Bool.and_eq_true, decide_eq_true_eq] at h
  unfold jsToUpperChar
  rw [if_neg]
  simp only [Bool.and_eq_true, decide_eq_true_eq, not_and]
  omega

lemma isAlphaJS_comp_jsToUpperChar :
    (isAlphaJS ∘ jsToUpperChar) = isAlphaJS := by
  funext c
  exact isAlphaJS_jsToUpperChar c

lemma isDigitJS_comp_jsToUpperChar :
    (isDigitJS ∘ jsToUpperChar) = isDigitJS := by
  funext c
  exact isDigitJS_jsToUpperChar c

/-! ### Lemmas about the unanchored cell pattern -/

namespace SimpleCellDataProvider

lemma findCellMatchAux_map (cs : List Char) :
    findCellMatchAux (cs.map jsToUpperChar) =
      (findCellMatchAux cs).map
        (fun pr => (pr.1.map jsToUpperChar, pr.2.map jsToUpperChar)) := by
  induction cs with
  | nil => rfl
  | cons c rest ih =>
    simp only [List.map_cons, findCellMatchAux, isAlphaJS_jsToUpperChar,
      List.dropWhile_map, List.takeWhile_map, isAlphaJS_comp_jsToUpperChar,
      isDigitJS_comp_jsToUpperChar]
    by_cases hA : isAlphaJS c = true
    · rw [if_pos hA, if_pos hA]
      cases hd : rest.dropWhile isAlphaJS with
      | nil => exact ih
      | cons d tail =>
        by_cases hD : isDigitJS d = true
        · simp [isDigitJS_jsToUpperChar, hD]
        · simp [isDigitJS_jsToUpperChar, hD, ih]
    · rw [if_neg hA, if_neg hA]
      exact ih

lemma findCellMatchAux_digits (cs : List Char) (pr : List Char × List Char)
    (h : findCellMatchAux cs = some pr) : ∀ c ∈ pr.2, isDigitJS c = true := by
  induction cs with
  | nil => simp [findCellMatchAux] at h
  | cons c rest ih =>
    rw [findCellMatchAux] at h
    split at h
    · split at h
      · split at h
        · cases h
          intro x hx
          exact List.mem_takeWhile_imp hx
        · exact ih h
      · exact ih h
    · exact ih h

lemma map_jsToUpperChar_of_all_digits (l : List Char)
    (h : ∀ c ∈ l, isDigitJS c = true) : l.map jsToUpperChar = l := by
  induction l with
  | nil => rfl
  | cons c rest ih =>
    simp only [List.map_cons]
    rw [jsToUpperChar_of_isDigitJS c (h c (by simp)),
      ih (fun x hx => h x (by simp [hx]))]

lemma isCellId_parts (s : String) (h : isCellId s = true) :
    s.data.takeWhile isAlphaJS ≠ [] ∧ s.data.dropWhile isAlphaJS ≠ [] ∧
      ∀ c ∈ s.data.dropWhile isAlphaJS, isDigitJS c = true := by
  unfold isCellId at h
  simp only [Bool.and_eq_true, Bool.not_eq_true', List.isEmpty_eq_false,
    List.all_eq_true] at h
  exact ⟨h.1.1, h.1.2, h.2⟩

lemma findCellMatch_of_isCellId (s : String) (h : isCellId s = true) :
    findCellMatch s =
      some (String.mk (s.data.takeWhile isAlphaJS),
            String.mk (s.data.dropWhile isAlphaJS)) := by
  obtain ⟨h1, h2, h3⟩ := isCellId_parts s h
  unfold findCellMatch
  rcases hcs : s.data with _ | ⟨c, t⟩
  · rw [hcs] at h1
    simp at h1
  · rw [hcs] at h1 h2 h3
    have hca : isAlphaJS c = true := by
      by_contra hc
      apply h1
      rw [List.takeWhile_cons, if_neg hc]
    simp only [List.dropWhile_cons, hca, if_true] at h2 h3
    simp only [List.takeWhile_cons, List.dropWhile_cons, hca, if_true]
    rw [findCellMatchAux]
    simp only [hca, if_true]
    rcases hd : t.dropWhile isAlphaJS with _ | ⟨d, tail⟩
    · exact absurd hd h2
    · rw [hd] at h3
      have hDd : isDigitJS d = true := h3 d (by simp)
      simp only [hDd, if_true]
      rw [List.takeWhile_eq_self_iff.mpr h3]

lemma findCellMatch_digits (s : String) (sc sr : String)
    (h : findCellMatch s = some (sc, sr)) : ∀ c ∈ sr.data, isDigitJS c = true := by
  unfold findCellMatch at h
  cases haux : findCellMatchAux s.data with
  | none => rw [haux] at h; cases h
  | some pr =>
    obtain ⟨ls, ds⟩ := pr
    rw [haux] at h
    cases h
    exact findCellMatchAux_digits s.data (ls, ds) haux

lemma toUpperStr_of_all_digits (s : String)
    (h : ∀ c ∈ s.data, isDigitJS c = true) : toUpperStr s = s := by
  unfold toUpperStr
  rw [map_jsToUpperChar_of_all_digits s.data h]

lemma toUpperStr_idem (s : String) : toUpperStr (toUpperStr s) = toUpperStr s := by
  unfold toUpperStr
  show String.mk ((s.data.map jsToUpperChar).map jsToUpperChar) = _
  rw [List.map_map]
  have hcomp : jsToUpperChar ∘ jsToUpperChar = jsToUpperChar := funext jsToUpperChar_idem
  rw [hcomp]

lemma findCellMatch_toUpper (s : String) :
    findCellMatch (toUpperStr s) =
      (findCellMatch s).map (fun pr => (toUpperStr pr.1, toUpperStr pr.2)) := by
  unfold findCellMatch
  show (match findCellMatchAux (s.data.map jsToUpperChar) with
    | some (ls, ds) => some (String.mk ls, String.mk ds)
    | none => none) = _
  rw [findCellMatchAux_map]
  cases findCellMatchAux s.data with
  | none => rfl
  | some pr =>
    obtain ⟨ls, ds⟩ := pr
    rfl

/-- The rectangle a `getCellRange` call reads does not depend on which
corner comes first: the bounds are normalized with `min`/`max`. -/
lemma getCellRange_comm (d : SimpleCellDataProvider) (a b : String) :
    getCellRange d a b = getCellRange d b a := by
  unfold getCellRange
  rcases h1 : findCellMatch a with _ | ⟨sc, sr⟩ <;>
    rcases h2 : findCellMatch b with _ | ⟨ec, er⟩
  · rfl
  · rfl
  · rfl
  · dsimp only
    rw [Nat.min_comm (digitsToNat sr.data) (digitsToNat er.data),
      Nat.max_comm (digitsToNat sr.data) (digitsToNat er.data),
      Nat.min_comm (colToIndex (toUpperStr sc)) (colToIndex (toUpperStr ec)),
      Nat.max_comm (colToIndex (toUpperStr sc)) (colToIndex (toUpperStr ec))]

/-- For endpoints of the full CellId shape the pattern match succeeds,
and the call returns the normalized rectangle. -/
lemma getCellRange_ok_of_isCellId (d : SimpleCellDataProvider) (a b : String)
    (ha : isCellId a = true) (hb : isCellId b = true) :
    ∃ r0 nr c0 nc,
      getCellRange d a b = .ok ((List.range' r0 nr).map fun row =>
        (List.range' c0 nc).map fun col =>
          getCellValue d (indexToCol col ++ Nat.repr row)) := by
  have hma := findCellMatch_of_isCellId a ha
  have hmb := findCellMatch_of_isCellId b hb
  unfold getCellRange
  rw [hma, hmb]
  exact ⟨_, _, _, _, rfl⟩

/-- Uppercasing the endpoints of a range does not change the result:
the digits group is unaffected and the column label is uppercased before
resolution anyway. -/
lemma getCellRange_toUpper (d : SimpleCellDataProvider) (a b : String) :
    getCellRange d (toUpperStr a) (toUpperStr b) = getCellRange d a b := by
  unfold getCellRange
  rw [findCellMatch_toUpper a, findCellMatch_toUpper b]
  rcases h1 : findCellMatch a with _ | ⟨sc, sr⟩ <;>
    rcases h2 : findCellMatch b with _ | ⟨ec, er⟩
  · rfl
  · rfl
  · rfl
  · dsimp only [Option.map]
    rw [toUpperStr_of_all_digits sr (findCellMatch_digits a sc sr h1),
      toUpperStr_of_all_digits er (findCellMatch_digits b ec er h2),
      toUpperStr_idem sc, toUpperStr_idem ec]

end SimpleCellDataProvider

/-! ### The coercion table, stated the way the specification words it -/

/-- Numeric coercion as enumerated by the specification: null or empty
string to `0`; boolean to `1`/`0`; a number to itself; a non-empty
string to its floating-point parse (or "not a number"); any other shape
to "not a number". -/
def toNumberSpec : RuntimeValue → Option ℚ
  | .val .null => some 0
  | .val (.boolean b) => some (if b then 1 else 0)
  | .val (.num q) => some q
  | .val (.str s) => if s = "" then some 0 else parseFloatQ s
  | .arr _ => none

/-! ### Flattening lemmas for the aggregate functions -/

/-- The sequence of runtime values an aggregate function iterates over:
arguments in order, with each range argument contributing its cells row
by row. -/
def flattenArgs : List RuntimeValue → List RuntimeValue
  | [] => []
  | .arr rows :: rest =>
    (rows.map fun row => row.map RuntimeValue.val).flatten ++ flattenArgs rest
  | v :: rest => v :: flattenArgs rest

lemma foldl_rows {α : Type} (f : α → RuntimeValue → α)
    (rows : List (List FormulaValue)) (acc : α) :
    rows.foldl (fun a row => row.foldl (fun a2 c => f a2 (.val c)) a) acc =
      ((rows.map fun row => row.map RuntimeValue.val).flatten).foldl f acc := by
  induction rows generalizing acc with
  | nil => rfl
  | cons row rest ih =>
    simp only [List.foldl_cons, List.map_cons, List.flatten_cons,
      List.foldl_append, List.foldl_map, ih]

lemma foldl_flattenArgs {α : Type} (f : α → RuntimeValue → α)
    (args : List RuntimeValue) (init : α) :
    args.foldl
      (fun acc arg =>
        match arg with
        | .arr rows => rows.foldl (fun a row => row.foldl (fun a2 c => f a2 (.val c)) a) acc
        | v => f acc v) init =
      (flattenArgs args).foldl f init := by
  induction args generalizing init with
  | nil => rfl
  | cons a rest ih =>
    cases a with
    | arr rows =>
      simp only [List.foldl_cons, flattenArgs, List.foldl_append]
      rw [← foldl_rows f rows init]
      exact ih _
    | val v =>
      simp only [List.foldl_cons, flattenArgs]
      exact ih _

lemma calculateMax_eq (args : List RuntimeValue) :
    calculateMax args =
      (match (flattenArgs args).foldl maxStep none with
       | some m => .val (.num m)
       | none => .val (.str "#ERROR")) := by
  unfold calculateMax
  rw [foldl_flattenArgs maxStep args none]

lemma calculateMin_eq (args : List RuntimeValue) :
    calculateMin args =
      (match (flattenArgs args).foldl minStep none with
       | some m => .val (.num m)
       | none => .val (.str "#ERROR")) := by
  unfold calculateMin
  rw [foldl_flattenArgs minStep args none]

lemma calculateSum_eq (args : List RuntimeValue) :
    calculateSum args = (flattenArgs args).foldl sumStep 0 := by
  unfold calculateSum
  rw [foldl_flattenArgs sumStep args 0]

lemma foldl_optStep_none_iff (step : Option ℚ → RuntimeValue → Option ℚ)
    (hstep : ∀ a v, step a v = none ↔ a = none ∧ toNumber v = none)
    (l : List RuntimeValue) (acc : Option ℚ) :
    l.foldl step acc = none ↔ acc = none ∧ ∀ v ∈ l, toNumber v = none := by
  induction l generalizing acc with
  | nil => simp
  | cons v rest ih =>
    rw [List.foldl_cons, ih (step acc v), hstep acc v]
    constructor
    · rintro ⟨⟨ha, hv⟩, hrest⟩
      exact ⟨ha, by simpa [hv] using hrest⟩
    · rintro ⟨ha, hall⟩
      exact ⟨⟨ha, hall v (by simp)⟩, fun x hx => hall x (by simp [hx])⟩

lemma maxStep_none_iff (a : Option ℚ) (v : RuntimeValue) :
    maxStep a v = none ↔ a = none ∧ toNumber v = none := by
  unfold maxStep
  cases h : toNumber v with
  | none => simp
  | some n => cases a <;> simp

lemma minStep_none_iff (a : Option ℚ) (v : RuntimeValue) :
    minStep a v = none ↔ a = none ∧ toNumber v = none := by
  unfold minStep
  cases h : toNumber v with
  | none => simp
  | some n => cases a <;> simp

lemma foldl_sumStep_of_none (l : List RuntimeValue) (q : ℚ)
    (h : ∀ v ∈ l, toNumber v = none) : l.foldl sumStep q = q := by
  induction l generalizing q with
  | nil => rfl
  | cons v rest ih =>
    rw [List.foldl_cons]
    have hv : toNumber v = none := h v (by simp)
    have : sumStep q v = q := by unfold sumStep; rw [hv]
    rw [this]
    exact ih q (fun x hx => h x (by simp [hx]))

/-! ### Shared concrete providers for the statements below -/

/-- A provider with no stored cells, used by formulas that reference no
cell. -/
def emptyProvider : CellDataProvider :=
  (SimpleCellDataProvider.mk []).provider

/-! ### The claims -/

/-- C1: the specification (like the usage example in the source's own
comment block) states `evaluate("=2+3*4") == 14`, the multiplicative
tier binding tighter than the additive one.  The code actually returns
`2`: `parseMultiplyDivide`'s lookahead `match([OPERATOR])` consumes the
`+` before discovering it is not `*` or `/`, so `parseAddSubtract`
never sees an operator and the trailing `3*4` is silently discarded
with the rest of the token stream.  This theorem evaluates the embedded
code at the failing input, for every provider. -/
theorem C1_two_plus_three_times_four (p : CellDataProvider) :
    evaluate p "=2+3*4" = .val (.num 2) := by
  with_unfolding_all rfl

/-- C3: the specification states `evaluate("=(2+3)*4") == 20` and a
general round-trip law for pure arithmetic formulas.  On the code, the
`+` inside the parentheses is consumed by `parseMultiplyDivide`'s
lookahead, the inner expression parse stops after `2`, and the expected
`)` is not found, so the whole formula evaluates to a parse-error
value.  This theorem evaluates the embedded code at the failing
input, for every provider. -/
theorem C3_parenthesized_formula (p : CellDataProvider) :
    evaluate p "=(2+3)*4" = .val (.str "#ERROR: 预期表达式结束有 ')'") := by
  with_unfolding_all rfl

/-- C10: the parser does not require the token stream to be fully
consumed: `"1 2"` tokenizes to two NUMBER tokens, `parse` returns the
leading expression `1` leaving the second NUMBER unread, and
`evaluate "=1 2"` returns `1` with no error for every provider. -/
theorem C10_trailing_tokens_ignored :
    tokenize "1 2".data = .ok [⟨.NUMBER, "1"⟩, ⟨.NUMBER, "2"⟩, ⟨.EOF, ""⟩] ∧
    parse [⟨.NUMBER, "1"⟩, ⟨.NUMBER, "2"⟩, ⟨.EOF, ""⟩] = .ok (.number 1) ∧
    (∀ p, evaluate p "=1 2" = .val (.num 1)) := by
  refine ⟨?_, ?_, ?_⟩
  · with_unfolding_all rfl
  · with_unfolding_all rfl
  · intro p
    with_unfolding_all rfl

/-- C2: `evaluate` is total: for every formula starting with `=`, the
pipeline result is either returned as-is, or the raised failure message
`m` is returned as the in-band value `"#ERROR: " ++ m` — nothing
propagates to the caller.  In particular `evaluate("=SUM(1,2")` (missing
closing parenthesis) is the parse-error value. -/
lemma evaluate_eq_core (p : CellDataProvider) (s : String) (rest : List Char)
    (h : s.data = '=' :: rest) :
    evaluate p s =
      (match evaluateCore p (trimJS rest) with
       | .ok v => v
       | .error m => .val (.str ("#ERROR: " ++ m))) := by
  unfold evaluate
  rw [h]
  rfl

theorem C2_evaluate_total_error_boundary :
    (∀ (p : CellDataProvider) (s : String) (rest : List Char),
        s.data = '=' :: rest →
        (∃ v, evaluateCore p (trimJS rest) = .ok v ∧ evaluate p s = v) ∨
        (∃ m, evaluateCore p (trimJS rest) = .error m ∧
          evaluate p s = .val (.str ("#ERROR: " ++ m)))) ∧
    (∀ p, evaluate p "=SUM(1,2" = .val (.str "#ERROR: 预期函数参数结束有 ')'")) := by
  constructor
  · intro p s rest h
    cases hc : evaluateCore p (trimJS rest) with
    | ok v =>
      exact Or.inl ⟨v, rfl, by rw [evaluate_eq_core p s rest h, hc]⟩
    | error m =>
      exact Or.inr ⟨m, rfl, by rw [evaluate_eq_core p s rest h, hc]⟩
  · intro p
    with_unfolding_all rfl

/-- C2 witness: the boundary dichotomy instantiated at `"=1"` with the
empty provider. -/
theorem C2_witness :
    (∃ v, evaluateCore emptyProvider (trimJS ['1']) = .ok v ∧
      evaluate emptyProvider "=1" = v) ∨
    (∃ m, evaluateCore emptyProvider (trimJS ['1']) = .error m ∧
      evaluate emptyProvider "=1" = .val (.str ("#ERROR: " ++ m))) :=
  C2_evaluate_total_error_boundary.1 emptyProvider "=1" ['1'] rfl

/-- C4: for a `binary_op` node with operator `/` whose operands
evaluate without a provider failure and both coerce to numbers, the
node evaluates to `"#DIV/0!"` exactly when the coerced right operand is
`0`, regardless of the left operand, and to the quotient otherwise; in
particular `evaluate("=1/0")` is `"#DIV/0!"` and `evaluate("=1/2")`
is `0.5`, for every provider. -/
theorem C4_division_by_zero :
    (∀ (p : CellDataProvider) (fuel : Nat) (l r : AstNode)
        (lv rv : RuntimeValue) (lq rq : ℚ),
        evaluateNode p fuel l = .ok lv →
        evaluateNode p fuel r = .ok rv →
        toNumber lv = some lq →
        toNumber rv = some rq →
        evaluateNode p (fuel + 1) (.binary_op "/" l r) =
          (if rq = 0 then .ok (.val (.str "#DIV/0!"))
           else .ok (.val (.num (lq / rq))))) ∧
    (∀ p, evaluate p "=1/0" = .val (.str "#DIV/0!")) ∧
    (∀ p, evaluate p "=1/2" = .val (.num 0.5)) := by
  refine ⟨?_, ?_, ?_⟩
  · intro p fuel l r lv rv lq rq hl hr hlq hrq
    rw [evaluateNode, hl, hr]
    dsimp only
    rw [hlq, hrq]
    dsimp only
    rw [if_neg (by decide), if_neg (by decide), if_neg (by decide), if_pos rfl]
  · intro p
    with_unfolding_all rfl
  · intro p
    with_unfolding_all rfl

/-- C4 witness: `1 / 0` at the node level with the empty provider. -/
theorem C4_witness :
    evaluateNode emptyProvider 2 (.binary_op "/" (.number 1) (.number 0)) =
      (if (0 : ℚ) = 0 then .ok (.val (.str "#DIV/0!"))
       else .ok (.val (.num (1 / 0)))) :=
  C4_division_by_zero.1 emptyProvider 1 (.number 1) (.number 0)
    (.val (.num 1)) (.val (.num 0)) 1 0 rfl rfl rfl rfl

/-- C5: `toNumber` realizes exactly the coercion table of the
specification (`toNumberSpec`), and a `binary_op` node whose operands
evaluate without provider failure but where either coercion yields "not
a number" evaluates to the in-band value `"#ERROR: 无法执行数值运算"`,
whatever the operator. -/
theorem C5_numeric_coercion :
    (∀ v, toNumber v = toNumberSpec v) ∧
    (∀ (p : CellDataProvider) (fuel : Nat) (op : String) (l r : AstNode)
        (lv rv : RuntimeValue),
        evaluateNode p fuel l = .ok lv →
        evaluateNode p fuel r = .ok rv →
        (toNumber lv = none ∨ toNumber rv = none) →
        evaluateNode p (fuel + 1) (.binary_op op l r) =
          .ok (.val (.str "#ERROR: 无法执行数值运算"))) := by
  constructor
  · intro v
    match v with
    | .arr rows => rfl
    | .val .null => rfl
    | .val (.num q) => rfl
    | .val (.boolean b) => rfl
    | .val (.str s) => rfl
  · intro p fuel op l r lv rv hl hr hcoerce
    rw [evaluateNode, hl, hr]
    dsimp only
    rcases hcoerce with h | h
    · rw [h]
    · rw [h]
      cases toNumber lv <;> rfl

/-- C5 witness: the coercion table at `null`, and a string operand
(`"x" + 1`) producing the in-band coercion error. -/
theorem C5_witness :
    toNumber (.val .null) = toNumberSpec (.val .null) ∧
    evaluateNode emptyProvider 2 (.binary_op "+" (.string "x") (.number 1)) =
      .ok (.val (.str "#ERROR: 无法执行数值运算")) :=
  ⟨C5_numeric_coercion.1 (.val .null),
   C5_numeric_coercion.2 emptyProvider 1 "+" (.string "x") (.number 1)
     (.val (.str "x")) (.val (.num 1)) rfl rfl (Or.inl (by with_unfolding_all rfl))⟩

/-- C6: `MAX` and `MIN` return the in-band value `"#ERROR"` exactly
when no numerically-coercible value occurs among their flattened
arguments, while `SUM` returns `0` in that same situation; concretely
`evaluate("=MAX()") == "#ERROR"` while `evaluate("=SUM()") == 0`, for
every provider. -/
theorem C6_empty_aggregate_asymmetry (args : List RuntimeValue) :
    (calculateMax args = .val (.str "#ERROR") ↔
      ∀ v ∈ flattenArgs args, toNumber v = none) ∧
    (calculateMin args = .val (.str "#ERROR") ↔
      ∀ v ∈ flattenArgs args, toNumber v = none) ∧
    ((∀ v ∈ flattenArgs args, toNumber v = none) → calculateSum args = 0) ∧
    (∀ p, evaluate p "=MAX()" = .val (.str "#ERROR")) ∧
    (∀ p, evaluate p "=SUM()" = .val (.num 0)) := by
  have hmax := foldl_optStep_none_iff maxStep maxStep_none_iff (flattenArgs args) none
  have hmin := foldl_optStep_none_iff minStep minStep_none_iff (flattenArgs args) none
  refine ⟨?_, ?_, ?_, ?_, ?_⟩
  · rw [calculateMax_eq]
    cases hf : (flattenArgs args).foldl maxStep none with
    | some m =>
      rw [hf] at hmax
      constructor
      · intro h
        exact absurd h (by simp)
      · intro h
        exact absurd (hmax.mpr ⟨rfl, h⟩) (by simp)
    | none =>
      rw [hf] at hmax
      exact ⟨fun _ => (hmax.mp rfl).2, fun _ => rfl⟩
  · rw [calculateMin_eq]
    cases hf : (flattenArgs args).foldl minStep none with
    | some m =>
      rw [hf] at hmin
      constructor
      · intro h
        exact absurd h (by simp)
      · intro h
        exact absurd (hmin.mpr ⟨rfl, h⟩) (by simp)
    | none =>
      rw [hf] at hmin
      exact ⟨fun _ => (hmin.mp rfl).2, fun _ => rfl⟩
  · intro h
    rw [calculateSum_eq]
    exact foldl_sumStep_of_none _ 0 h
  · intro p
    with_unfolding_all rfl
  · intro p
    with_unfolding_all rfl

/-- C6 witness: a single non-coercible argument makes `MAX` return
`"#ERROR"` while `SUM` returns `0`. -/
theorem C6_witness :
    calculateMax [RuntimeValue.val (.str "x")] = .val (.str "#ERROR") ∧
    calculateSum [RuntimeValue.val (.str "x")] = 0 :=
  ⟨(C6_empty_aggregate_asymmetry [RuntimeValue.val (.str "x")]).1.mpr (by decide),
   (C6_empty_aggregate_asymmetry [RuntimeValue.val (.str "x")]).2.2.1 (by decide)⟩

/-- C7: for valid CellIds the rectangle of `getCellRange` is normalized
with `min`/`max` of the two endpoints' rows and columns independently,
so swapping the endpoints gives the same result; the returned rows are
indexed by strictly increasing row numbers and each row by strictly
increasing column indices. -/
theorem C7_range_normalization (d : SimpleCellDataProvider) (a b : String)
    (ha : isCellId a = true) (hb : isCellId b = true) :
    SimpleCellDataProvider.getCellRange d a b =
      SimpleCellDataProvider.getCellRange d b a ∧
    ∃ r0 nr c0 nc,
      SimpleCellDataProvider.getCellRange d a b =
        .ok ((List.range' r0 nr).map fun row =>
          (List.range' c0 nc).map fun col =>
            SimpleCellDataProvider.getCellValue d
              (SimpleCellDataProvider.indexToCol col ++ Nat.repr row)) ∧
      (List.range' r0 nr).Pairwise (· < ·) ∧
      (List.range' c0 nc).Pairwise (· < ·) := by
  constructor
  · exact SimpleCellDataProvider.getCellRange_comm d a b
  · obtain ⟨r0, nr, c0, nc, hok⟩ :=
      SimpleCellDataProvider.getCellRange_ok_of_isCellId d a b ha hb
    exact ⟨r0, nr, c0, nc, hok,
      List.pairwise_lt_range' _ _, List.pairwise_lt_range' _ _⟩

/-- C7 witness: symmetry at the concrete endpoints `A1` and `B2` over
the empty store. -/
theorem C7_witness :
    SimpleCellDataProvider.getCellRange ⟨[]⟩ "A1" "B2" =
      SimpleCellDataProvider.getCellRange ⟨[]⟩ "B2" "A1" :=
  (C7_range_normalization ⟨[]⟩ "A1" "B2" (by decide) (by decide)).1

/-- C8 counterexample: the endpoint `"A1B"` does not match the anchored
CellId shape (letters then digits), yet `getCellRange` does not fail:
the unanchored `match(/([A-Za-z]+)([0-9]+)/)` finds the substring `A1`
and the call returns a 2×2 block, refuting "fails if and only if an
endpoint does not match the CellId shape". -/
theorem C8_counterexample :
    isCellId "A1B" = false ∧
    SimpleCellDataProvider.getCellRange ⟨[]⟩ "A1B" "B2" =
      .ok [[.null, .null], [.null, .null]] := by
  constructor
  · decide
  · with_unfolding_all rfl

/-- C8 (amended): `getCellRange` fails with the "无效的单元格范围"
condition iff the unanchored cell pattern finds no match in at least
one endpoint (no run of letters immediately followed by a digit).
Endpoints matching the full CellId shape always match the pattern and
therefore never fail; a non-CellId endpoint that merely contains a
letters-digits substring is silently resolved through its first match
instead of being rejected. -/
theorem C8_amended_invalid_range_condition (d : SimpleCellDataProvider) (a b : String) :
    (SimpleCellDataProvider.getCellRange d a b = .error "无效的单元格范围" ↔
      (SimpleCellDataProvider.findCellMatch a = none ∨
        SimpleCellDataProvider.findCellMatch b = none)) ∧
    (isCellId a = true → isCellId b = true →
      ∃ rows, SimpleCellDataProvider.getCellRange d a b = .ok rows) := by
  constructor
  · unfold SimpleCellDataProvider.getCellRange
    rcases h1 : SimpleCellDataProvider.findCellMatch a with _ | ⟨sc, sr⟩ <;>
      rcases h2 : SimpleCellDataProvider.findCellMatch b with _ | ⟨ec, er⟩ <;>
      simp
  · intro ha hb
    unfold SimpleCellDataProvider.getCellRange
    rw [SimpleCellDataProvider.findCellMatch_of_isCellId a ha,
      SimpleCellDataProvider.findCellMatch_of_isCellId b hb]
    exact ⟨_, rfl⟩

/-- C8 witness: both shape-valid endpoints `A1`, `B2` succeed on the
empty store. -/
theorem C8_witness :
    ∃ rows, SimpleCellDataProvider.getCellRange ⟨[]⟩ "A1" "B2" = .ok rows :=
  (C8_amended_invalid_range_condition ⟨[]⟩ "A1" "B2").2 (by decide) (by decide)

/-- C9 counterexample: with the store `{A1 ↦ 10}`, the lowercase direct
reference `=a1` evaluates to `null` while `=A1` evaluates to `10`:
`SimpleCellDataProvider.getCellValue` looks up the verbatim id with no
uppercase normalization, so lowercase input is not equivalent to
uppercase for direct cell references. -/
theorem C9_counterexample :
    evaluate (SimpleCellDataProvider.mk [("A1", .num 10)]).provider "=a1" =
      .val .null ∧
    evaluate (SimpleCellDataProvider.mk [("A1", .num 10)]).provider "=A1" =
      .val (.num 10) ∧
    evaluate (SimpleCellDataProvider.mk [("A1", .num 10)]).provider "=a1" ≠
      evaluate (SimpleCellDataProvider.mk [("A1", .num 10)]).provider "=A1" := by
  have h1 : evaluate (SimpleCellDataProvider.mk [("A1", .num 10)]).provider "=a1" =
      .val .null := by
    with_unfolding_all rfl
  have h2 : evaluate (SimpleCellDataProvider.mk [("A1", .num 10)]).provider "=A1" =
      .val (.num 10) := by
    with_unfolding_all rfl
  refine ⟨h1, h2, ?_⟩
  rw [h1, h2]
  decide

/-- C9 (amended): case-insensitivity holds for range endpoints —
uppercasing either endpoint never changes `getCellRange`, for every
provider state (concretely, the endpoints `a1:b2` resolve exactly like
`A1:B2`) — but a direct cell reference evaluates to a verbatim
`getCellValue` lookup with no case normalization, so a lowercase
reference agrees with the uppercase one only when the store does. -/
theorem C9_amended_case_sensitivity (d : SimpleCellDataProvider) (a b : String) :
    SimpleCellDataProvider.getCellRange d (toUpperStr a) (toUpperStr b) =
      SimpleCellDataProvider.getCellRange d a b ∧
    (∀ fuel cellId,
      evaluateNode d.provider (fuel + 1) (.cell_ref cellId) =
        .ok (.val (SimpleCellDataProvider.getCellValue d cellId))) ∧
    SimpleCellDataProvider.getCellRange d "a1" "b2" =
      SimpleCellDataProvider.getCellRange d "A1" "B2" := by
  refine ⟨SimpleCellDataProvider.getCellRange_toUpper d a b, ?_, ?_⟩
  · intro fuel cellId
    rfl
  · with_unfolding_all rfl

end Excel
